import Mathlib

/-
  Shallow embedding of the attribute-resolution engine of the dnd-origins
  repository (src/scripts/Generator/CharacterAttribute.js), together with
  theorems settling the frozen claims about it.

  JavaScript values reaching the engine are modelled by `JSVal`; the global
  `TABLES` object is modelled as an explicit association list threaded through
  the definitions; `Math.random` and the dice roller's randomness are modelled
  by an explicit stream `σ : Nat → Nat` together with a cursor `k` that each
  draw advances.  Thrown exceptions are modelled by `Option` (`none` = error).
  The recursion between `generate` and `translateOutcome` through sub-attribute
  construction is not structurally terminating (the source relies on the table
  data being acyclic), so it is modelled with an explicit fuel parameter.
-/

/-- A JavaScript value as it can occur in the engine: `undefined`, a boolean,
an integer number, or a string.  (The table data and options objects only
carry these shapes into the resolution path.) -/
inductive JSVal where
  | undef : JSVal
  | bool : Bool → JSVal
  | num : Int → JSVal
  | str : String → JSVal
deriving DecidableEq

/-- JavaScript `String(n)` for an integer number. -/
def jsIntToString (n : Int) : String := toString n

/-- JavaScript string coercion `String(v)` as performed by `.replace` on its
replacement argument: `undefined` becomes the text "undefined". -/
def jsToString : JSVal → String
  | JSVal.undef => "undefined"
  | JSVal.bool true => "true"
  | JSVal.bool false => "false"
  | JSVal.num n => jsIntToString n
  | JSVal.str s => s

/-- JavaScript truthiness of the modelled values: `undefined`, `false`, `0`
and the empty string are falsy. -/
def jsTruthy : JSVal → Bool
  | JSVal.undef => false
  | JSVal.bool b => b
  | JSVal.num n => decide (n ≠ 0)
  | JSVal.str s => decide (s ≠ "")

/-- Numeric value of a list of decimal digits. -/
def digitsToNat (l : List Char) : Nat :=
  l.foldl (fun acc c => acc * 10 + (c.toNat - 48)) 0

/-- Parses a nonempty all-digit character list. -/
def parseDigits (l : List Char) : Option Nat :=
  if l ≠ [] ∧ l.all Char.isDigit then some (digitsToNat l) else none

/-- Strips leading and trailing whitespace, as `Number(string)` does before
reading the numeric literal. -/
def trimWs (l : List Char) : List Char :=
  ((l.dropWhile Char.isWhitespace).reverse.dropWhile Char.isWhitespace).reverse

/-- A nonempty all-decimal-digit list. -/
def allDigits (l : List Char) : Bool :=
  !l.isEmpty && l.all Char.isDigit

/-- A hexadecimal digit. -/
def isHexDigit (c : Char) : Bool :=
  c.isDigit || (decide ('a' ≤ c) && decide (c ≤ 'f')) ||
    (decide ('A' ≤ c) && decide (c ≤ 'F'))

/-- Value of a hexadecimal digit. -/
def hexDigitVal (c : Char) : Nat :=
  if c.isDigit then c.toNat - 48
  else if decide ('a' ≤ c) && decide (c ≤ 'f') then c.toNat - 87
  else c.toNat - 55

/-- Numeric value of a list of hexadecimal digits. -/
def hexToNat (l : List Char) : Nat :=
  l.foldl (fun acc c => acc * 16 + hexDigitVal c) 0

/-- The optional exponent part of a decimal literal: empty, or `e`/`E`
followed by an optionally signed digit run. -/
def jsExpPart : List Char → Bool
  | [] => true
  | c :: rest =>
    (c == 'e' || c == 'E') &&
      (match rest with
       | '+' :: ds => allDigits ds
       | '-' :: ds => allDigits ds
       | ds => allDigits ds)

/-- An unsigned decimal literal as `Number(string)` accepts it: digits with
an optional fraction, or a fraction alone, each with an optional exponent. -/
def jsUnsignedDecimal (l : List Char) : Bool :=
  let intPart := l.takeWhile Char.isDigit
  let rest := l.dropWhile Char.isDigit
  match rest with
  | '.' :: rest2 =>
    let frac := rest2.takeWhile Char.isDigit
    let rest3 := rest2.dropWhile Char.isDigit
    (!intPart.isEmpty || !frac.isEmpty) && jsExpPart rest3
  | _ => !intPart.isEmpty && jsExpPart rest

/-- `!isNaN(s)` for a string, i.e. `Number(s)` is not NaN: after trimming
whitespace the text is empty (Number gives 0), an optionally signed decimal
literal with optional fraction and exponent, an optionally signed `Infinity`,
or an unsigned `0x`/`0X` hexadecimal literal.  (The ES2015 `0b`/`0o` prefixes
never occur in the engine's data and are outside the model.) -/
def jsStrIsNumeric (s : String) : Bool :=
  match trimWs s.data with
  | [] => true
  | '0' :: 'x' :: ds => !ds.isEmpty && ds.all isHexDigit
  | '0' :: 'X' :: ds => !ds.isEmpty && ds.all isHexDigit
  | '+' :: rest => jsUnsignedDecimal rest || rest == ("Infinity").data
  | '-' :: rest => jsUnsignedDecimal rest || rest == ("Infinity").data
  | l => jsUnsignedDecimal l || l == ("Infinity").data

/-- The unsigned part of `parseInt`: a `0x`/`0X` prefix switches to
hexadecimal, otherwise the leading decimal digit run is read; consuming no
digit at all yields NaN (`none`). -/
def jsParseUnsigned (l : List Char) : Option Nat :=
  match l with
  | '0' :: 'x' :: ds =>
    let hs := ds.takeWhile isHexDigit
    if hs.isEmpty then none else some (hexToNat hs)
  | '0' :: 'X' :: ds =>
    let hs := ds.takeWhile isHexDigit
    if hs.isEmpty then none else some (hexToNat hs)
  | _ =>
    let ds := l.takeWhile Char.isDigit
    if ds.isEmpty then none else some (digitsToNat ds)

/-- `parseInt(s)` (radix unset): trim leading whitespace, read an optional
sign, then the unsigned part; `none` models the NaN result. -/
def jsParseInt (s : String) : Option Int :=
  match s.data.dropWhile Char.isWhitespace with
  | '+' :: rest => (jsParseUnsigned rest).map (fun n => (n : Int))
  | '-' :: rest => (jsParseUnsigned rest).map (fun n => -(n : Int))
  | l => (jsParseUnsigned l).map (fun n => (n : Int))

/-- A lookup value after the normalisation at the top of `find`: either NaN
(which JavaScript strict equality matches against nothing, itself included)
or an ordinary value. -/
inductive LookupVal where
  | nan : LookupVal
  | val : JSVal → LookupVal
deriving DecidableEq

/-- The lookup normalisation at the top of `find` (lines 166-169):
`if(!isNaN(lookup)) lookup = parseInt(lookup)`.  An (integer) number passes
`isNaN` and survives `parseInt` unchanged; a string accepted by `Number` is
converted by `parseInt` — possibly to NaN (e.g. "", ".5", "Infinity") —
while any other string is kept; booleans pass `isNaN` (they coerce to 0/1)
but `parseInt("true"/"false")` is NaN; `undefined` fails `isNaN` and is
kept. -/
def jsNormalizeLookup (v : JSVal) : LookupVal :=
  match v with
  | JSVal.num n => LookupVal.val (JSVal.num n)
  | JSVal.str s =>
    if jsStrIsNumeric s then
      match jsParseInt s with
      | some n => LookupVal.val (JSVal.num n)
      | none => LookupVal.nan
    else LookupVal.val (JSVal.str s)
  | JSVal.bool _ => LookupVal.nan
  | JSVal.undef => LookupVal.val JSVal.undef

/-- JavaScript strict equality between the normalised lookup and a row's
outcome value: NaN equals nothing; otherwise same-shape value equality
(numbers to numbers, strings to strings, never across types). -/
def lookupEq (lk : LookupVal) (o : JSVal) : Bool :=
  match lk with
  | LookupVal.nan => false
  | LookupVal.val v => decide (v = o)

/-- JavaScript `String.prototype.replace` with a (nonempty) string pattern:
only the leftmost occurrence of `pat` is replaced by `rep`. -/
def listReplaceFirst (pat rep : List Char) : List Char → List Char
  | [] => []
  | c :: cs =>
    if pat.isPrefixOf (c :: cs) then rep ++ (c :: cs).drop pat.length
    else c :: listReplaceFirst pat rep cs

/-- String wrapper for `listReplaceFirst`. -/
def jsReplaceFirst (s pat rep : String) : String :=
  ⟨listReplaceFirst pat.data rep.data s.data⟩

/-- Decidable side condition used to state where the leftmost occurrence of
`pat` sits: `noEarlyMatch pat tail a` says that `pat` matches at no position
strictly inside `a` when the full string is `a ++ pat ++ tail`. -/
def noEarlyMatch (pat tail : List Char) : List Char → Bool
  | [] => true
  | c :: cs =>
    !(pat.isPrefixOf (c :: (cs ++ (pat ++ tail)))) && noEarlyMatch pat tail cs

/-- The dice roll outcome: total plus individual die faces.  In the source it
is the object returned by `Dice.roll` (read via `.get`). -/
structure DiceRollResult where
  total : Int
  rolls : List Nat
deriving DecidableEq

/-- Modelled from the spec: the `Dice` class is not part of the provided
sources; per §4.1 its expression grammar is `<count>d<faces>[+|-<modifier>]`
and anything else fails with an invalid-expression error (`none` here). -/
def Dice.parse (s : String) : Option (Nat × Nat × Int) :=
  let l := s.data
  let countCs := l.takeWhile Char.isDigit
  let rest1 := l.dropWhile Char.isDigit
  match countCs, rest1 with
  | [], _ => none
  | _ :: _, 'd' :: rest2 =>
    let faceCs := rest2.takeWhile Char.isDigit
    let rest3 := rest2.dropWhile Char.isDigit
    match faceCs, rest3 with
    | [], _ => none
    | _ :: _, [] => some (digitsToNat countCs, digitsToNat faceCs, 0)
    | _ :: _, '+' :: ms =>
      (parseDigits ms).map (fun m => (digitsToNat countCs, digitsToNat faceCs, (m : Int)))
    | _ :: _, '-' :: ms =>
      (parseDigits ms).map (fun m => (digitsToNat countCs, digitsToNat faceCs, -(m : Int)))
    | _ :: _, _ :: _ => none
  | _, _ => none

/-- Modelled from the spec: `Dice.roll` parses the expression, rolls `count`
dice uniform in `[1, faces]` (the stream `σ` supplies the randomness, `% faces`
keeps each die in range) and totals them plus the signed modifier.  Returns
the result together with the advanced stream cursor. -/
def Dice.roll (expr : String) (σ : Nat → Nat) (k : Nat) : Option (DiceRollResult × Nat) :=
  (Dice.parse expr).map (fun t =>
    let rolls := (List.range t.1).map (fun i => σ (k + i) % t.2.1 + 1)
    ({ total := (rolls.sum : Int) + t.2.2, rolls := rolls }, k + t.1))

/-- One outcome row of a table.  `outcome` is the display value (string or
number), `min`/`max` bound the dice totals for dice-ranged tables, `translate`
is the optional template string, and `extra` the optional per-row extra-text
function. -/
structure Row where
  outcome : JSVal
  min : Int := 0
  max : Int := 0
  translate : Option String := none
  extra : Option (String → String) := none

/-- A table: its `roll` strategy (the string "random" or a dice expression)
and its ordered outcome rows. -/
structure Table where
  roll : String
  outcomes : List Row

/-- The global `TABLES` object, modelled as an association list from key to
table; `TABLES[key]` is `lookupTable tables key`. -/
def lookupTable (tables : List (String × Table)) (key : String) : Option Table :=
  (tables.find? (fun p => p.1 == key)).map (fun p => p.2)

/-- `CharacterAttribute.toKey` (lines 281-283): spaces to dashes, lowercase. -/
def toKey (s : String) : String :=
  ⟨s.data.map (fun c => if c.isWhitespace then '-' else c.toLower)⟩

/-- The `_data` property after the `data` setter ran: either the empty object
produced by `Object.assign({}, x)` on a non-object `x` (`false`/`undefined`),
or a shallow copy of a row. -/
inductive DataVal where
  | emptyObj : DataVal
  | row : Row → DataVal

/-- The `rollResult` property: never assigned (`undefined`), the numeric index
assigned by `randomRow`, or the `Dice.roll` object assigned by `rollForRow`. -/
inductive RollResultVal where
  | unset : RollResultVal
  | index : Nat → RollResultVal
  | dice : DiceRollResult → RollResultVal
deriving DecidableEq

/-- The attribute instance after construction. -/
structure CharacterAttribute where
  tableName : String
  table : Option Table
  fetch : Option JSVal
  rollModifier : JSVal
  rollResult : RollResultVal
  data : DataVal

/-- The configuration reaching `setConfig`: the table name plus the optional
`fetch` and `rollModifier` properties (absent properties read back as
`undefined`). -/
structure Config where
  tableName : String
  fetch : Option JSVal := none
  rollModifier : JSVal := JSVal.undef

/-- The `fetch` getter (lines 105-107): `this._fetch || 'random'`. -/
def fetchGet (o : Option JSVal) : JSVal :=
  match o with
  | none => JSVal.str "random"
  | some v => if jsTruthy v then v else JSVal.str "random"

/-- `find` (lines 163-178): normalise the lookup, then `forEach` over the rows
keeping the row of every strict-equality match; the last matching row wins
and `none` models the initial `false`. -/
def find (tbl : Table) (lookup : JSVal) : Option Row :=
  let lk := jsNormalizeLookup lookup
  tbl.outcomes.foldl (fun res o => if lookupEq lk o.outcome then some o else res) none

/-- The `forEach` scan inside `rollForRow` (lines 200-204): every row whose
inclusive `[min, max]` range contains the total overwrites the result, so the
last containing row wins; `none` models the initial `false`. -/
def rollForRowScan (rows : List Row) (total : Int) : Option Row :=
  rows.foldl (fun res o => if total ≥ o.min ∧ total ≤ o.max then some o else res) none

/-- The MOD substitution at the top of `roll` (lines 219-221): unless the
modifier is exactly the boolean `false`, replace the first occurrence of
"MOD" with the string coercion of the modifier. -/
def substMOD (mod : JSVal) (dice : String) : String :=
  if mod ≠ JSVal.bool false then jsReplaceFirst dice "MOD" (jsToString mod) else dice

/-- `roll` (lines 215-224): MOD substitution followed by `Dice.roll`. -/
def roll (mod : JSVal) (dice : String) (σ : Nat → Nat) (k : Nat) :
    Option (DiceRollResult × Nat) :=
  Dice.roll (substMOD mod dice) σ k

/-- `randomRow` (lines 185-188): draw a uniform index below the number of
outcomes (the stream draw reduced mod the length models
`Math.floor(Math.random() * length)`), store it as the roll result, and return
the row at that index. -/
def randomRow (tbl : Table) (σ : Nat → Nat) (k : Nat) : (Nat × Option Row) × Nat :=
  let idx := σ k % tbl.outcomes.length
  ((idx, tbl.outcomes.get? idx), k + 1)

/-- `rollForRow` (lines 196-207): roll the table's dice expression, store the
result, and scan the rows for the last range containing the total. -/
def rollForRow (mod : JSVal) (tbl : Table) (σ : Nat → Nat) (k : Nat) :
    Option ((DiceRollResult × Option Row) × Nat) :=
  (roll mod tbl.roll σ k).map (fun p => ((p.1, rollForRowScan tbl.outcomes p.1.total), p.2))

/-- The `data` setter (lines 73-79): `Object.assign({}, data)` turns a found
row into a shallow copy and `false`/`undefined` into the (truthy) empty
object; then, when the copy carries a truthy `translate` string, that string
is replaced on the copy by the translation.  `tr` is the effectful
`translateOutcome` of the owning attribute, receiving the copy's `extra`
function, the template and the stream cursor. -/
def setDataM (tr : Option (String → String) → String → Nat → Option (String × Nat))
    (found : Option Row) (k : Nat) : Option (DataVal × Nat) :=
  match found with
  | none => some (DataVal.emptyObj, k)
  | some r =>
    match r.translate with
    | none => some (DataVal.row r, k)
    | some t =>
      if t = "" then some (DataVal.row r, k)
      else (tr r.extra t k).map (fun p => (DataVal.row { r with translate := some p.1 }, p.2))

/-- `toString` (lines 267-272) reading the data property: a truthy `translate`
wins, otherwise the plain outcome; on the empty object both reads give
`undefined`. -/
def dataToString : DataVal → JSVal
  | DataVal.emptyObj => JSVal.undef
  | DataVal.row r =>
    match r.translate with
    | some t => if t = "" then r.outcome else JSVal.str t
    | none => r.outcome

/-- Observation: is the stored data the empty object `\x7b\x7d`? -/
def dataIsEmpty : DataVal → Bool
  | DataVal.emptyObj => true
  | DataVal.row _ => false

/-- Observation mirroring the claimed contract
`Attribute.rollResult -> DiceRollResult | none`: true exactly when the roll
result is unset or a dice-roll object. -/
def rollIsDiceOrUnset : RollResultVal → Bool
  | RollResultVal.index _ => false
  | RollResultVal.unset => true
  | RollResultVal.dice _ => true

/-- Scanner for the lazy inner part of a `\x7b\x7b(.*?)\x7d\x7d` marker:
consume characters until the first "\x7d\x7d", returning the inner text and
the remainder after the closing braces. -/
def findCloseAux : List Char → Option (List Char × List Char)
  | [] => none
  | c :: rest =>
    if c = '}' ∧ rest.head? = some '}' then some ([], rest.tail)
    else (findCloseAux rest).map (fun pr => (c :: pr.1, pr.2))

/-- Match one `\x7b\x7b(.*?)\x7d\x7d` unit at the head of the list, returning
the full matched text and the remainder. -/
def matchUnit (l : List Char) : Option (List Char × List Char) :=
  match l with
  | c1 :: c2 :: rest =>
    if c1 = '{' ∧ c2 = '{' then
      match findCloseAux rest with
      | some pr => some ('{' :: '{' :: (pr.1 ++ ['}', '}']), pr.2)
      | none => none
    else none
  | _ => none

/-- One-or-more consecutive marker units (the `+` in the source's global
match regex), greedy, fuelled by the list length (each unit consumes at least
four characters, so the fuel never runs out on real input). -/
def matchUnitsF : Nat → List Char → Option (List Char × List Char)
  | 0, _ => none
  | f + 1, l =>
    match matchUnit l with
    | none => none
    | some (u, rest) =>
      match matchUnitsF f rest with
      | some (us, r) => some (u ++ us, r)
      | none => some (u, rest)

/-- Wrapper choosing the fuel. -/
def matchUnits (l : List Char) : Option (List Char × List Char) :=
  matchUnitsF l.length l

/-- The global scan `outcome.match(/(\x7b\x7b(.*?)\x7d\x7d)+/g)` (line 236):
walk left to right, collecting each maximal run of consecutive marker units
as one match; fuelled by the list length (each step consumes at least one
character). -/
def scanMatchesF : Nat → List Char → List (List Char)
  | 0, _ => []
  | _ + 1, [] => []
  | f + 1, c :: cs =>
    match matchUnits (c :: cs) with
    | some (u, rest) => u :: scanMatchesF f rest
    | none => scanMatchesF f cs

/-- Wrapper choosing the fuel. -/
def scanMatches (l : List Char) : List (List Char) :=
  scanMatchesF l.length l

/-- The keyword extraction `matches[x].replace(/[\x7b\x7b\x7d\x7d]/g,'')`
(line 240): drop every brace character. -/
def removeBraces (l : List Char) : List Char :=
  l.filter (fun c => !(c == '{') && !(c == '}'))

/-- The in-loop replacement `outcome.replace(/\x7b\x7b(.*?)\x7d\x7d/, rep)`
(line 256): replace the first marker unit, if any, by `rep`. -/
def replaceMarkerAux (rep : List Char) : List Char → List Char
  | [] => []
  | c :: cs =>
    match matchUnit (c :: cs) with
    | some pr => rep ++ pr.2
    | none => c :: replaceMarkerAux rep cs

/-- String wrapper for `replaceMarkerAux`. -/
def jsReplaceMarker (outcome rep : String) : String :=
  ⟨replaceMarkerAux rep.data outcome.data⟩

/-- The loop body of `translateOutcome` (lines 238-257) over the precomputed
match list: for each match, strip braces to get the keyword; a keyword naming
an existing table is resolved through `genAttr` (construction of a fresh
sub-attribute, supplied by the caller); otherwise the keyword "extra" with a
defined per-row extra function applies that function to the current outcome
string; otherwise the keyword is rolled as dice and the total substituted.
Each iteration replaces the first remaining marker of the evolving outcome. -/
def translateLoop (tables : List (String × Table))
    (genAttr : String → Nat → Option (String × Nat))
    (ex : Option (String → String)) (σ : Nat → Nat) :
    List (List Char) → String → Nat → Option (String × Nat)
  | [], outcome, k => some (outcome, k)
  | m :: ms, outcome, k =>
    let keyword : String := ⟨removeBraces m⟩
    let diceStep : Option (String × Nat) :=
      (Dice.roll keyword σ k).map (fun pr => (jsIntToString pr.1.total, pr.2))
    let step : Option (String × Nat) :=
      if (lookupTable tables keyword).isSome then genAttr keyword k
      else
        match ex with
        | some f => if keyword = "extra" then some (f outcome, k) else diceStep
        | none => diceStep
    step.bind (fun pr => translateLoop tables genAttr ex σ ms (jsReplaceMarker outcome pr.1) pr.2)

/-- `translateOutcome` (lines 234-260): compute the matches of the original
string once, then run the loop. -/
def translateOutcomeF (tables : List (String × Table))
    (genAttr : String → Nat → Option (String × Nat))
    (ex : Option (String → String)) (σ : Nat → Nat)
    (outcome : String) (k : Nat) : Option (String × Nat) :=
  translateLoop tables genAttr ex σ (scanMatches outcome.data) outcome k

/-- The constructor plus `generate` (lines 18-22 and 137-154), abstracted over
the `translateOutcome` effect `tr`: set up the key, table and fetch mode; when
`fetch` is not the string "random", run `find` and assign the result to
`data` — after which `this.data` is always truthy (a row copy or the empty
object), so generation returns there; otherwise select a row by the table's
strategy and assign it.  An absent table errors at the first property access
(`none`), as the JavaScript would throw. -/
def generateCore (tables : List (String × Table)) (σ : Nat → Nat)
    (tr : Option (String → String) → String → Nat → Option (String × Nat))
    (cfg : Config) (k : Nat) : Option (CharacterAttribute × Nat) :=
  let key := toKey cfg.tableName
  let tblO := lookupTable tables key
  let fv := fetchGet cfg.fetch
  if fv ≠ JSVal.str "random" then
    match tblO with
    | none => none
    | some tbl =>
      (setDataM tr (find tbl fv) k).map (fun p =>
        ({ tableName := key, table := some tbl, fetch := cfg.fetch,
           rollModifier := cfg.rollModifier, rollResult := RollResultVal.unset,
           data := p.1 }, p.2))
  else
    match tblO with
    | none => none
    | some tbl =>
      if tbl.roll = "random" then
        let rr := randomRow tbl σ k
        (setDataM tr rr.1.2 rr.2).map (fun p =>
          ({ tableName := key, table := some tbl, fetch := cfg.fetch,
             rollModifier := cfg.rollModifier, rollResult := RollResultVal.index rr.1.1,
             data := p.1 }, p.2))
      else
        match rollForRow cfg.rollModifier tbl σ k with
        | none => none
        | some rr =>
          (setDataM tr rr.1.2 rr.2).map (fun p =>
            ({ tableName := key, table := some tbl, fetch := cfg.fetch,
               rollModifier := cfg.rollModifier, rollResult := RollResultVal.dice rr.1.1,
               data := p.1 }, p.2))

/-- Full resolution with fuel bounding the depth of sub-attribute
construction inside `translateOutcome` (the source has no such bound and
would overflow the stack on cyclic table data). -/
def generateFuel (tables : List (String × Table)) (σ : Nat → Nat) :
    Nat → Config → Nat → Option (CharacterAttribute × Nat)
  | 0, _, _ => none
  | fuel + 1, cfg, k =>
    generateCore tables σ
      (fun ex outcome k1 =>
        translateOutcomeF tables
          (fun name k2 =>
            (generateFuel tables σ fuel { tableName := name } k2).map
              (fun p => (jsToString (dataToString p.1.data), p.2)))
          ex σ outcome k1)
      cfg k

/-- The replacement computed for a keyword naming a table (lines 246-248):
construct a fresh attribute on that table name alone (so `fetch` defaults to
"random") and take its string form. -/
def subAttrReplacement (tables : List (String × Table)) (σ : Nat → Nat) (fuel : Nat)
    (name : String) (k : Nat) : Option (String × Nat) :=
  (generateFuel tables σ fuel { tableName := name } k).map
    (fun p => (jsToString (dataToString p.1.data), p.2))

/-- `translateOutcome` as run by a fuelled attribute. -/
def translateFuel (tables : List (String × Table)) (σ : Nat → Nat) (fuel : Nat)
    (ex : Option (String → String)) (outcome : String) (k : Nat) : Option (String × Nat) :=
  translateOutcomeF tables (subAttrReplacement tables σ fuel) ex σ outcome k

/-- The shallow copy built by the `data` setter, with the translation of the
copy's truthy `translate` string abstracted as a pure function `tr`. -/
def copyTranslated (r : Row) (tr : String → String) : Row :=
  match r.translate with
  | none => r
  | some t => if t = "" then r else { r with translate := some (tr t) }

/-- Heap view of the `data` setter (lines 73-78), isolating which object the
setter writes: rows live in an explicit heap (table rows occupy the initial
cells); `Object.assign(\x7b\x7d, data)` allocates a fresh cell holding a copy
of the source row, and the `translate` write on line 77 hits that fresh cell.
Returns the extended heap and the reference to the copy. -/
def setDataHeap (heap : List Row) (src : Nat) (tr : String → String) : List Row × Nat :=
  match heap.get? src with
  | none => (heap, heap.length)
  | some r => (heap ++ [copyTranslated r tr], heap.length)

/-- Marker literal `\x7b\x7b` ++ w ++ `\x7d\x7d`. -/
def mkMarker (w : String) : String := "\x7b\x7b" ++ w ++ "\x7d\x7d"

/-- A string with no brace characters at all. -/
def bracefree (s : String) : Bool :=
  s.data.all (fun c => !(c == '{') && !(c == '}'))

/-- Identity on strings (a concrete extra-text function for tests). -/
def idString : String → String := fun s => s

/-- A trivial translation effect for instantiating `generateCore` directly. -/
def trId : Option (String → String) → String → Nat → Option (String × Nat) :=
  fun _ s k => some (s, k)

/-- Fixture: the "background" table of the spec's concrete scenario. -/
def rowPeasant : Row := { outcome := JSVal.str "Peasant", min := 1, max := 50 }

/-- Fixture row. -/
def rowNoble : Row := { outcome := JSVal.str "Noble", min := 51, max := 100 }

/-- Fixture table with a 1d100 strategy covering 1-100. -/
def tableBG : Table := { roll := "1d100", outcomes := [rowPeasant, rowNoble] }

/-- Fixture store holding only the background table. -/
def tablesBG : List (String × Table) := [("background", tableBG)]

/-- Fixture table whose ranges 5-10 miss every achievable 1d4 total. -/
def tableGap : Table :=
  { roll := "1d4", outcomes := [{ outcome := JSVal.str "High", min := 5, max := 10 }] }

/-- Fixture store holding only the gap table. -/
def tablesGap : List (String × Table) := [("gap", tableGap)]

/-- Fixture row whose range 1-10 contains 7. -/
def rowA : Row := { outcome := JSVal.str "A", min := 1, max := 10 }

/-- Fixture row whose range 5-10 also contains 7. -/
def rowB : Row := { outcome := JSVal.str "B", min := 5, max := 10 }

/-- Fixture row. -/
def rowFriend : Row := { outcome := JSVal.str "Friend" }

/-- Fixture row. -/
def rowRival : Row := { outcome := JSVal.str "Rival" }

/-- Fixture row. -/
def rowStranger : Row := { outcome := JSVal.str "Stranger" }

/-- Fixture: the "relationship" table with the random strategy. -/
def tableRel : Table :=
  { roll := "random", outcomes := [rowFriend, rowRival, rowStranger] }

/-- Fixture store holding only the relationship table. -/
def tablesRel : List (String × Table) := [("relationship", tableRel)]

/-- Fixture configuration naming the relationship table. -/
def cfgRel : Config := { tableName := "relationship" }

/-- Fixture configuration with an explicit fetch value matching no row. -/
def cfgWizard : Config :=
  { tableName := "background", fetch := some (JSVal.str "Wizard") }

/-- Fixture row with outcome "A" on range 1-1. -/
def rowDupA1 : Row := { outcome := JSVal.str "A", min := 1, max := 1 }

/-- Fixture row duplicating outcome "A" on range 2-2. -/
def rowDupA2 : Row := { outcome := JSVal.str "A", min := 2, max := 2 }

/-- Fixture table with two rows sharing the outcome value "A". -/
def tableDup : Table := { roll := "1d2", outcomes := [rowDupA1, rowDupA2] }

/-- Fixture row whose outcome is the integer-like string "12". -/
def rowNumStr : Row := { outcome := JSVal.str "12" }

/-- Fixture table holding only the numeric-string row. -/
def tableNumStr : Table := { roll := "random", outcomes := [rowNumStr] }

/-- Fixture row whose outcome is the decimal string "12.5", which passes
JavaScript's `isNaN` but is not an integer literal. -/
def rowDecStr : Row := { outcome := JSVal.str "12.5" }

/-- Fixture table holding only the decimal-string row. -/
def tableDecStr : Table := { roll := "random", outcomes := [rowDecStr] }

/-- Fixture randomness stream: constantly 0. -/
def rng0 : Nat → Nat := fun _ => 0

/-- Fixture randomness stream: constantly 1. -/
def rng1 : Nat → Nat := fun _ => 1

/-- Two strings with the same character data are equal. -/
theorem string_ext {s t : String} (h : s.data = t.data) : s = t :=
  congrArg String.mk h

/-- A list is a Boolean prefix of itself followed by anything. -/
theorem isPrefixOf_append_self (l m : List Char) : l.isPrefixOf (l ++ m) = true := by
  induction l with
  | nil => cases m <;> rfl
  | cons c cs ih => simp [List.isPrefixOf, ih]

/-- `listReplaceFirst` replaces exactly the occurrence after `a` when the
pattern matches nowhere strictly inside `a`; whatever follows (including
further occurrences of the pattern) is untouched. -/
theorem listReplaceFirst_at (pat rep : List Char) (hne : pat ≠ []) :
    ∀ (a b : List Char), noEarlyMatch pat b a = true →
      listReplaceFirst pat rep (a ++ (pat ++ b)) = a ++ (rep ++ b) := by
  intro a
  induction a with
  | nil =>
    intro b _
    cases pat with
    | nil => exact absurd rfl hne
    | cons c pt =>
      show listReplaceFirst (c :: pt) rep (c :: (pt ++ b)) = rep ++ b
      rw [listReplaceFirst,
        if_pos (by rw [← List.cons_append]; exact isPrefixOf_append_self (c :: pt) b)]
      rw [← List.cons_append, List.drop_left]
  | cons c a' ih =>
    intro b h
    rw [noEarlyMatch, Bool.and_eq_true, Bool.not_eq_true'] at h
    have hnp : ¬ (pat.isPrefixOf (c :: (a' ++ (pat ++ b))) = true) := by simp [h.1]
    show listReplaceFirst pat rep (c :: (a' ++ (pat ++ b))) = c :: (a' ++ (rep ++ b))
    rw [listReplaceFirst, if_neg hnp, ih b h.2]

/-- `find?` over a list extended on the right by one element. -/
theorem find?_concat (p : Row → Bool) (l : List Row) (a : Row) :
    (l ++ [a]).find? p =
      match l.find? p with
      | some x => some x
      | none => if p a then some a else none := by
  rw [List.find?_append]
  cases h : l.find? p with
  | some x => simp [Option.or]
  | none =>
    cases hpa : p a <;> simp [List.find?, hpa, Option.or]

/-- A `forEach` that overwrites its result on every predicate hit computes
the last hit: as a fold it equals `find?` over the reversed list, with the
initial accumulator as fallback. -/
theorem foldl_pick_last (p : Row → Prop) [DecidablePred p] (rows : List Row) :
    ∀ (acc : Option Row),
      rows.foldl (fun res o => if p o then some o else res) acc =
        match rows.reverse.find? (fun o => decide (p o)) with
        | some x => some x
        | none => acc := by
  induction rows with
  | nil => intro acc; simp
  | cons o rows' ih =>
    intro acc
    rw [List.foldl_cons, ih, List.reverse_cons, find?_concat]
    by_cases hpo : p o
    · cases h : rows'.reverse.find? (fun o => decide (p o)) <;> simp [h, hpo]
    · cases h : rows'.reverse.find? (fun o => decide (p o)) <;> simp [h, hpo]

/-- When every predicate hit in the list is the distinguished row `r`, the
overwriting fold returns `r` as soon as `r` is hit at all (or was already the
accumulator). -/
theorem foldl_find_unique (p : Row → Prop) [DecidablePred p] (r : Row) (rows : List Row) :
    ∀ (acc : Option Row),
      (∀ o ∈ rows, p o → o = r) →
      ((r ∈ rows ∧ p r) ∨ acc = some r) →
      rows.foldl (fun res o => if p o then some o else res) acc = some r := by
  induction rows with
  | nil =>
    intro acc _ hd
    rcases hd with ⟨hm, _⟩ | h
    · exact absurd hm (List.not_mem_nil r)
    · simpa using h
  | cons o rows' ih =>
    intro acc hu hd
    rw [List.foldl_cons]
    by_cases hpo : p o
    · have ho : o = r := hu o (List.mem_cons_self o rows') hpo
      refine ih _ (fun o' ho' hp' => hu o' (List.mem_cons_of_mem _ ho') hp') (Or.inr ?_)
      rw [if_pos hpo, ho]
    · rcases hd with ⟨hm, hpr⟩ | h
      · rcases List.mem_cons.mp hm with he | hm'
        · exact absurd (he ▸ hpr) hpo
        · exact ih _ (fun o' ho' hp' => hu o' (List.mem_cons_of_mem _ ho') hp')
            (Or.inl ⟨hm', hpr⟩)
      · exact ih _ (fun o' ho' hp' => hu o' (List.mem_cons_of_mem _ ho') hp')
          (Or.inr (by rw [if_neg hpo, h]))

/-- When no row's range contains the total, the overwriting fold keeps its
accumulator. -/
theorem rollScan_keeps (total : Int) (rows : List Row) :
    ∀ (acc : Option Row),
      (∀ o ∈ rows, total < o.min ∨ o.max < total) →
      rows.foldl (fun res o => if total ≥ o.min ∧ total ≤ o.max then some o else res) acc
        = acc := by
  induction rows with
  | nil => intro acc _; rfl
  | cons o rows' ih =>
    intro acc h
    rw [List.foldl_cons, if_neg, ih _ (fun o' ho' => h o' (List.mem_cons_of_mem _ ho'))]
    rcases h o (List.mem_cons_self o rows') with h1 | h1 <;> (intro hc; omega)

/-- A marker unit cannot start at a character other than an opening brace. -/
theorem matchUnit_cons_none (c : Char) (l : List Char) (hc : c ≠ '{') :
    matchUnit (c :: l) = none := by
  cases l with
  | nil => rfl
  | cons c2 rest => simp [matchUnit, hc]

/-- The lazy close scanner stops at the first pair of closing braces. -/
theorem findClose_through (w : List Char) :
    ∀ (q : List Char), (∀ c ∈ w, c ≠ '}') →
      findCloseAux (w ++ ('}' :: '}' :: q)) = some (w, q) := by
  induction w with
  | nil => intro q _; simp [findCloseAux]
  | cons c w' ih =>
    intro q h
    have hc : c ≠ '}' := h c (List.mem_cons_self c w')
    rw [List.cons_append, findCloseAux, if_neg (by simp [hc]),
      ih q (fun c' hc' => h c' (List.mem_cons_of_mem _ hc'))]
    rfl

/-- A marker unit at the head of `\x7b\x7b w \x7d\x7d q` matches exactly the
marker when `w` holds no closing brace. -/
theorem matchUnit_marker (w q : List Char) (hw : ∀ c ∈ w, c ≠ '}') :
    matchUnit ('{' :: '{' :: (w ++ ('}' :: '}' :: q))) =
      some ('{' :: '{' :: (w ++ ['}', '}']), q) := by
  rw [matchUnit]
  simp [findClose_through w q hw]

/-- Fuelled unit repetition fails whenever the single-unit match fails. -/
theorem matchUnitsF_none (f : Nat) (l : List Char) (h : matchUnit l = none) :
    matchUnitsF f l = none := by
  cases f with
  | zero => rfl
  | succ f => rw [matchUnitsF, h]

/-- Unit repetition fails on a list whose head is not an opening brace. -/
theorem matchUnitsF_nobrace (f : Nat) (q : List Char) (h : ∀ c ∈ q, c ≠ '{') :
    matchUnitsF f q = none := by
  cases q with
  | nil => cases f <;> rfl
  | cons c q' =>
    exact matchUnitsF_none f _ (matchUnit_cons_none c q' (h c (List.mem_cons_self c q')))

/-- Same, through the fuel-choosing wrapper. -/
theorem matchUnits_cons_none (c : Char) (l : List Char) (hc : c ≠ '{') :
    matchUnits (c :: l) = none :=
  matchUnitsF_none _ _ (matchUnit_cons_none c l hc)

/-- A marker unit cannot start inside a list with no opening brace. -/
theorem matchUnit_nobrace (q : List Char) (hq : ∀ c ∈ q, c ≠ '{') :
    matchUnit q = none := by
  cases q with
  | nil => rfl
  | cons c q' => exact matchUnit_cons_none c q' (hq c (List.mem_cons_self c q'))

/-- The greedy unit run on `\x7b\x7b w \x7d\x7d q` is the single marker when
`w` holds no closing brace and `q` starts with no opening brace. -/
theorem matchUnits_marker (w q : List Char) (hw : ∀ c ∈ w, c ≠ '}')
    (hq : ∀ c ∈ q, c ≠ '{') :
    matchUnits ('{' :: '{' :: (w ++ ('}' :: '}' :: q))) =
      some ('{' :: '{' :: (w ++ ['}', '}']), q) := by
  have h1 := matchUnit_marker w q hw
  have h3 := matchUnit_nobrace q hq
  simp only [matchUnits, List.length_cons, matchUnitsF, h1, h3]

/-- The global scan skips a prefix holding no opening brace. -/
theorem scanF_skip (p : List Char) :
    ∀ (f : Nat) (r : List Char), (∀ c ∈ p, c ≠ '{') →
      scanMatchesF (p.length + f) (p ++ r) = scanMatchesF f r := by
  induction p with
  | nil => intro f r _; simp
  | cons c p' ih =>
    intro f r h
    have hc : c ≠ '{' := h c (List.mem_cons_self c p')
    rw [List.cons_append, List.length_cons, Nat.add_right_comm, scanMatchesF,
      matchUnits_cons_none c _ hc]
    exact ih f r (fun c' hc' => h c' (List.mem_cons_of_mem _ hc'))

/-- The global scan finds nothing in a list with no opening brace. -/
theorem scanF_nobrace : ∀ (f : Nat) (q : List Char), (∀ c ∈ q, c ≠ '{') →
    scanMatchesF f q = [] := by
  intro f
  induction f with
  | zero => intro q _; rfl
  | succ f ih =>
    intro q h
    cases q with
    | nil => rfl
    | cons c q' =>
      rw [scanMatchesF, matchUnits_cons_none c q' (h c (List.mem_cons_self c q'))]
      exact ih q' (fun c' hc' => h c' (List.mem_cons_of_mem _ hc'))

/-- A template made of a braceless prefix, one marker and a braceless suffix
scans to exactly that marker. -/
theorem scan_single_marker (p w q : List Char)
    (hp : ∀ c ∈ p, c ≠ '{') (hw : ∀ c ∈ w, c ≠ '}') (hq : ∀ c ∈ q, c ≠ '{') :
    scanMatches (p ++ ('{' :: '{' :: (w ++ ('}' :: '}' :: q)))) =
      ['{' :: '{' :: (w ++ ['}', '}'])] := by
  have h1 := matchUnits_marker w q hw hq
  have h2 := scanF_nobrace ((w ++ '}' :: '}' :: q).length + 1) q hq
  rw [scanMatches, List.length_append, scanF_skip p _ _ hp]
  simp only [List.length_cons, scanMatchesF, h1, h2]

/-- Stripping braces from a single marker recovers the keyword when the
keyword itself holds no braces. -/
theorem removeBraces_marker (w : List Char) (hw : ∀ c ∈ w, c ≠ '{' ∧ c ≠ '}') :
    removeBraces ('{' :: '{' :: (w ++ ['}', '}'])) = w := by
  have hself : List.filter (fun c => !(c == '{') && !(c == '}')) w = w :=
    List.filter_eq_self.mpr (fun a ha => by
      rcases hw a ha with ⟨h1, h2⟩
      simp [h1, h2])
  show List.filter (fun c => !(c == '{') && !(c == '}')) (['{', '{'] ++ (w ++ ['}', '}'])) = w
  simp [hself]

/-- Replacing the first marker of a braceless-prefix, one-marker template
substitutes at the marker and keeps prefix and suffix. -/
theorem replaceMarker_through (rep w q : List Char) (hw : ∀ c ∈ w, c ≠ '}') :
    ∀ (p : List Char), (∀ c ∈ p, c ≠ '{') →
      replaceMarkerAux rep (p ++ ('{' :: '{' :: (w ++ ('}' :: '}' :: q)))) =
        p ++ (rep ++ q) := by
  intro p
  induction p with
  | nil =>
    intro _
    show replaceMarkerAux rep ('{' :: '{' :: (w ++ ('}' :: '}' :: q))) = rep ++ q
    rw [replaceMarkerAux, matchUnit_marker w q hw]
  | cons c p' ih =>
    intro h
    have hc : c ≠ '{' := h c (List.mem_cons_self c p')
    show replaceMarkerAux rep (c :: (p' ++ ('{' :: '{' :: (w ++ ('}' :: '}' :: q))))) = _
    rw [replaceMarkerAux, matchUnit_cons_none c _ hc,
      ih (fun c' hc' => h c' (List.mem_cons_of_mem _ hc'))]
    rfl

/-- Character data of a marker literal. -/
theorem mkMarker_data (w : String) :
    (mkMarker w).data = '{' :: '{' :: (w.data ++ ['}', '}']) := by
  simp [mkMarker, String.data_append]

/-- A `bracefree` string holds neither opening nor closing braces. -/
theorem bracefree_props (s : String) (h : bracefree s = true) :
    ∀ c ∈ s.data, c ≠ '{' ∧ c ≠ '}' := by
  intro c hc
  rw [bracefree, List.all_eq_true] at h
  have := h c hc
  simp only [Bool.and_eq_true, Bool.not_eq_true', beq_eq_false_iff_ne] at this
  exact this

/-- C1: at the failing input — the background table (1d100, rows Peasant and
Noble) resolved with the explicit fetch value "Wizard", which matches no
row — generation completes with the empty data object and the row selector
never runs (the roll result stays unset), because `Object.assign(\x7b\x7d,
false)` is a truthy empty object and the "If data has been found, bail out"
check therefore fires even though `find` found nothing.  The claim (and the
code's own comment) expect a fall-through to the row selector here. -/
theorem c1_find_miss_bails :
    (generateFuel tablesBG rng0 1 cfgWizard 0).map
      (fun p => (dataIsEmpty p.1.data, p.1.rollResult)) =
    some (true, RollResultVal.unset) := by decide

/-- C2 counterexample: on a table whose declared ranges (5-10) contain no
achievable 1d4 total, a resolution rolling total 1 does not surface any
failure — it returns successfully with the empty data object (and the dice
result recorded), refuting the claim that a missed range lookup surfaces a
`RowNotFound` failure to the caller. -/
theorem c2_counterexample :
    (generateFuel tablesGap rng0 1 { tableName := "gap" } 0).map
      (fun p => (dataIsEmpty p.1.data, p.1.rollResult)) =
    some (true, RollResultVal.dice { total := 1, rolls := [1] }) := by decide

/-- C2 (amended): when the total lies in no row's inclusive range the scan
returns no row (`false` in the source); the data setter then stores the
truthy empty object, resolution completes without error, and `toString` on
such an attribute yields `undefined`. -/
theorem c2_no_row_empty (rows : List Row) (total : Int)
    (h : ∀ r ∈ rows, total < r.min ∨ r.max < total) :
    rollForRowScan rows total = none ∧
    (∀ tr k, setDataM tr none k = some (DataVal.emptyObj, k)) ∧
    dataToString DataVal.emptyObj = JSVal.undef := by
  refine ⟨?_, fun tr k => rfl, rfl⟩
  exact rollScan_keeps total rows none h

/-- C2 witness: the gap table's single row 5-10 misses the total 1, and the
scan indeed returns no row. -/
theorem c2_no_row_empty_w :
    (∀ r ∈ tableGap.outcomes, (1 : Int) < r.min ∨ r.max < 1) ∧
    rollForRowScan tableGap.outcomes 1 = none :=
  ⟨by decide, (c2_no_row_empty tableGap.outcomes 1 (by decide)).1⟩

/-- C3 counterexample: with rows A (range 1-10) and B (range 5-10) both
containing the total 7, the scan returns row B — the last containing row —
not the earliest one (A), refuting the first-match claim. -/
theorem c3_counterexample :
    (rollForRowScan [rowA, rowB] 7).map (fun r => r.outcome) = some (JSVal.str "B") ∧
    JSVal.str "B" ≠ JSVal.str "A" := by decide

/-- C3 (amended): the scan in `rollForRow` returns the LAST row whose
inclusive range contains the total — equivalently the first match over the
reversed row list; when at most one row matches (disjoint ranges) this is the
unique matching row. -/
theorem c3_last_match (rows : List Row) (total : Int) :
    rollForRowScan rows total =
      rows.reverse.find? (fun o => decide (total ≥ o.min ∧ total ≤ o.max)) := by
  rw [rollForRowScan, foldl_pick_last (fun o => total ≥ o.min ∧ total ≤ o.max) rows none]
  cases h : rows.reverse.find? (fun o => decide (total ≥ o.min ∧ total ≤ o.max)) <;> simp

/-- C4 counterexample: resolving the random-strategy relationship table with
an index draw of 1 leaves the numeric index 1 in `rollResult` — a value that
is neither a `DiceRollResult` nor unset — refuting the claim that a random
table records no roll result. -/
theorem c4_counterexample :
    (generateFuel tablesRel rng1 1 cfgRel 0).map (fun p => p.1.rollResult) =
      some (RollResultVal.index 1) ∧
    rollIsDiceOrUnset (RollResultVal.index 1) = false := by decide

/-- C4 (amended): on a table whose strategy is "random", generation picks the
row at the uniform-random index (the stream draw reduced modulo the number of
outcomes) and RECORDS THAT INDEX as the attribute's `rollResult`; so after a
resolution `rollResult` ranges over unset, a numeric index, or a
`DiceRollResult`, not only the latter two of the claim. -/
theorem c4_random_strategy (tables : List (String × Table)) (σ : Nat → Nat)
    (tr : Option (String → String) → String → Nat → Option (String × Nat))
    (cfg : Config) (k : Nat) (tbl : Table)
    (h1 : lookupTable tables (toKey cfg.tableName) = some tbl)
    (h2 : tbl.roll = "random")
    (h3 : fetchGet cfg.fetch = JSVal.str "random") :
    generateCore tables σ tr cfg k =
      (setDataM tr (tbl.outcomes.get? (σ k % tbl.outcomes.length)) (k + 1)).map
        (fun p => ({ tableName := toKey cfg.tableName, table := some tbl,
                     fetch := cfg.fetch, rollModifier := cfg.rollModifier,
                     rollResult := RollResultVal.index (σ k % tbl.outcomes.length),
                     data := p.1 }, p.2)) := by
  simp only [generateCore, randomRow, h1, h3]
  rw [if_neg (by simp), if_pos h2]

/-- C4 witness: the relationship table satisfies the hypotheses and the
resulting attribute indeed carries the numeric index 1. -/
theorem c4_random_strategy_w :
    fetchGet cfgRel.fetch = JSVal.str "random" ∧
    (generateCore tablesRel rng1 trId cfgRel 0).map (fun p => p.1.rollResult) =
      some (RollResultVal.index 1) := by
  refine ⟨rfl, ?_⟩
  rw [c4_random_strategy tablesRel rng1 trId cfgRel 0 tableRel rfl rfl rfl]
  decide

/-- C5 counterexample: with roll modifier `-2`, the expression "1d6+MOD" is
textually rewritten to "1d6+-2" (the string coercion of `-2` spliced over the
MOD token), not to the claimed "1d6-2". -/
theorem c5_counterexample :
    substMOD (JSVal.num (-2)) "1d6+MOD" = "1d6+-2" ∧
    ("1d6+-2" : String) ≠ "1d6-2" := by decide

/-- C5 (amended): for a numeric roll modifier, the FIRST occurrence of the
literal token MOD in the expression is textually replaced by the decimal
string of the modifier before rolling (the rest of the expression, including
any later MOD, is untouched); concretely, modifier `-2` on "1d6+MOD" rolls
the string "1d6+-2". -/
theorem c5_mod_subst :
    (∀ (n : Int) (a b : String), noEarlyMatch ("MOD".data) b.data a.data = true →
       substMOD (JSVal.num n) (a ++ "MOD" ++ b) = a ++ jsIntToString n ++ b) ∧
    substMOD (JSVal.num (-2)) "1d6+MOD" = "1d6+-2" := by
  constructor
  · intro n a b h
    rw [substMOD, if_pos (by simp)]
    apply string_ext
    show listReplaceFirst ("MOD".data) ((jsToString (JSVal.num n)).data)
        ((a ++ "MOD" ++ b).data) = (a ++ jsIntToString n ++ b).data
    have hd : (a ++ "MOD" ++ b).data = a.data ++ ("MOD".data ++ b.data) := by
      simp [String.data_append]
    rw [hd, listReplaceFirst_at ("MOD".data) _ (by decide) a.data b.data h]
    simp [String.data_append, jsToString]
  · decide

/-- C5 witness: instantiating the general substitution statement at modifier
5 and expression "2d4+MOD". -/
theorem c5_mod_subst_w :
    noEarlyMatch ("MOD".data) "".data "2d4+".data = true ∧
    substMOD (JSVal.num 5) ("2d4+" ++ "MOD" ++ "") = "2d4+" ++ jsIntToString 5 ++ "" :=
  ⟨by decide, c5_mod_subst.1 5 "2d4+" "" (by decide)⟩

/-- C6 counterexample: in the template consisting of a dice marker followed
by an extra marker, the extra-text function receives the CURRENT, partially
substituted string ("2 \x7b\x7bextra\x7d\x7d" after the dice marker was
replaced), not the original template as claimed: with the identity function
as `extra`, expansion yields "2 2 \x7b\x7bextra\x7d\x7d", whereas invoking
the function with the original template would have yielded
"2 \x7b\x7b2d1\x7d\x7d \x7b\x7bextra\x7d\x7d". -/
theorem c6_counterexample :
    translateFuel [] rng0 1 (some idString)
        (mkMarker "2d1" ++ " " ++ mkMarker "extra") 0 =
      some ("2 2 " ++ mkMarker "extra", 2) ∧
    ("2 2 " ++ mkMarker "extra" : String) ≠
      "2 " ++ (mkMarker "2d1" ++ " " ++ mkMarker "extra") := by decide

/-- C6 (amended): for a template made of a braceless prefix, one marker and a
braceless suffix, the substituted value follows the claimed precedence — a
keyword naming a known table is replaced by the string form of a freshly
resolved sub-attribute on that table (default random fetch); otherwise the
keyword "extra", when the row defines an extra function, is replaced by that
function applied to the CURRENT outcome string (here the template itself);
otherwise the keyword is rolled as dice and the total substituted — and the
replacement is spliced exactly over the marker. -/
theorem c6_precedence (tables : List (String × Table)) (σ : Nat → Nat) (fuel : Nat)
    (f : String → String) (p w q : String) (k : Nat)
    (hp : bracefree p = true) (hw : bracefree w = true) (hq : bracefree q = true) :
    translateFuel tables σ fuel (some f) (p ++ mkMarker w ++ q) k =
      (if (lookupTable tables w).isSome then subAttrReplacement tables σ fuel w k
       else if w = "extra" then some (f (p ++ mkMarker w ++ q), k)
       else (Dice.roll w σ k).map (fun pr => (jsIntToString pr.1.total, pr.2))).bind
        (fun pr => some (p ++ pr.1 ++ q, pr.2)) := by
  have hp1 : ∀ c ∈ p.data, c ≠ '{' := fun c hc => (bracefree_props p hp c hc).1
  have hq1 : ∀ c ∈ q.data, c ≠ '{' := fun c hc => (bracefree_props q hq c hc).1
  have hw2 : ∀ c ∈ w.data, c ≠ '}' := fun c hc => (bracefree_props w hw c hc).2
  have hdata : (p ++ mkMarker w ++ q).data =
      p.data ++ ('{' :: '{' :: (w.data ++ ('}' :: '}' :: q.data))) := by
    simp [String.data_append, mkMarker_data]
  have hscan : scanMatches ((p ++ mkMarker w ++ q).data) =
      ['{' :: '{' :: (w.data ++ ['}', '}'])] := by
    rw [hdata]
    exact scan_single_marker p.data w.data q.data hp1 hw2 hq1
  have hkw : (⟨removeBraces ('{' :: '{' :: (w.data ++ ['}', '}']))⟩ : String) = w := by
    rw [removeBraces_marker w.data (bracefree_props w hw)]
  have hrepl : ∀ rep : String,
      jsReplaceMarker (p ++ mkMarker w ++ q) rep = p ++ rep ++ q := by
    intro rep
    apply string_ext
    show replaceMarkerAux rep.data ((p ++ mkMarker w ++ q).data) = (p ++ rep ++ q).data
    rw [hdata, replaceMarker_through rep.data w.data q.data hw2 p.data hp1]
    simp [String.data_append]
  rw [translateFuel, translateOutcomeF, hscan]
  simp only [translateLoop, hkw, hrepl]

/-- C6 witness: the dice branch at a concrete template "a \x7b\x7b1d1\x7d\x7d b"
with no tables defined rolls 1d1 and splices the total over the marker. -/
theorem c6_precedence_w :
    bracefree "a " = true ∧
    translateFuel [] rng0 0 (some idString) ("a " ++ mkMarker "1d1" ++ " b") 0 =
      some ("a 1 b", 1) := by
  refine ⟨by decide, ?_⟩
  rw [c6_precedence [] rng0 0 idString "a " "1d1" " b" 0 (by decide) (by decide) (by decide)]
  decide

/-- C7 counterexample: three failures of the left-inverse claim.  First,
with two rows sharing the outcome value "A" (ranges 1-1 and 2-2), looking up
the first row's own outcome value returns the LAST matching row (min 2), not
that row (min 1).  Second, a row whose outcome is the integer-like string
"12" is never found by its own value: the lookup passes `isNaN`, is
converted by `parseInt` to the number 12, and strict equality against the
string "12" fails.  Third, the same happens to the non-integer numeric
string "12.5": `isNaN("12.5")` is false, `parseInt("12.5")` is 12, and the
number 12 never strictly equals the string "12.5". -/
theorem c7_counterexample :
    (find tableDup (JSVal.str "A")).map (fun r => r.min) = some 2 ∧
    rowDupA1.min = 1 ∧ ((2 : Int) ≠ 1) ∧
    (find tableNumStr (JSVal.str "12")).isNone = true ∧
    (find tableDecStr (JSVal.str "12.5")).isNone = true := by decide

/-- C7 (amended): a lookup that passes JavaScript's `isNaN` is first
converted by `parseInt` (an integer number survives unchanged; a numeric
string becomes its leading integer part, or NaN, which matches nothing) and
then compared by strict equality, any other lookup is compared by strict
equality as it is; `find` returns the LAST matching row.  It is a left
inverse of display exactly for a row whose own outcome value survives the
normalisation — a number, or a string failing `isNaN` — and which is the
only row carrying that outcome value. -/
theorem c7_find_self (tbl : Table) (r : Row)
    (hmem : r ∈ tbl.outcomes)
    (hself : jsNormalizeLookup r.outcome = LookupVal.val r.outcome)
    (huniq : ∀ o ∈ tbl.outcomes, r.outcome = o.outcome → o = r) :
    find tbl r.outcome = some r := by
  simp only [find, hself]
  exact foldl_find_unique
    (fun o => lookupEq (LookupVal.val r.outcome) o.outcome = true) r tbl.outcomes none
    (fun o ho hp => huniq o ho (by simpa [lookupEq] using hp))
    (Or.inl ⟨hmem, by simp [lookupEq]⟩)

/-- C7 witness: in the relationship table the row "Friend" is found by its
own outcome value. -/
theorem c7_find_self_w :
    rowFriend ∈ tableRel.outcomes ∧ find tableRel rowFriend.outcome = some rowFriend := by
  refine ⟨by simp [tableRel], ?_⟩
  refine c7_find_self tableRel rowFriend (by simp [tableRel]) (by decide) ?_
  intro o ho h
  simp only [tableRel, List.mem_cons, List.not_mem_nil, or_false] at ho
  rcases ho with ho | ho | ho <;> subst ho
  · rfl
  · exact absurd h (by decide)
  · exact absurd h (by decide)

/-- C8: a template in which the marker scan finds nothing (no
\x7b\x7bkeyword\x7d\x7d marker at all) is returned by `translateOutcome`
unchanged, with the stream cursor untouched. -/
theorem c8_no_marker_id (tables : List (String × Table))
    (genAttr : String → Nat → Option (String × Nat)) (ex : Option (String → String))
    (σ : Nat → Nat) (s : String) (k : Nat)
    (h : scanMatches s.data = []) :
    translateOutcomeF tables genAttr ex σ s k = some (s, k) := by
  rw [translateOutcomeF, h, translateLoop]

/-- C8 witness: a concrete plain string expands to itself. -/
theorem c8_no_marker_id_w :
    scanMatches ("Raised by wolves").data = [] ∧
    translateOutcomeF [] (fun _ _ => none) none rng0 "Raised by wolves" 0 =
      some ("Raised by wolves", 0) :=
  ⟨by decide, c8_no_marker_id [] (fun _ _ => none) none rng0 "Raised by wolves" 0 (by decide)⟩

/-- C9: the data setter never writes a table row: on an explicit heap it
allocates a fresh cell holding the shallow copy of the source row (the
translation overwriting only the copy's `translate` field), and every
pre-existing heap cell — in particular every row of the table store — reads
back unchanged; the copy agrees with the source row on all other fields. -/
theorem c9_no_table_mutation (heap : List Row) (src : Nat) (tr : String → String) :
    (∀ j, j < heap.length → ((setDataHeap heap src tr).1).get? j = heap.get? j) ∧
    (∀ r, heap.get? src = some r →
      ((setDataHeap heap src tr).1).get? (setDataHeap heap src tr).2 =
        some (copyTranslated r tr) ∧
      (copyTranslated r tr).outcome = r.outcome ∧
      (copyTranslated r tr).min = r.min ∧
      (copyTranslated r tr).max = r.max ∧
      (copyTranslated r tr).extra = r.extra) := by
  constructor
  · intro j hj
    rw [setDataHeap]
    cases h : heap.get? src with
    | none => rfl
    | some r => exact List.get?_append hj
  · intro r h
    have hcopy : ∀ s : Row, (copyTranslated s tr).outcome = s.outcome ∧
        (copyTranslated s tr).min = s.min ∧ (copyTranslated s tr).max = s.max ∧
        (copyTranslated s tr).extra = s.extra := by
      intro s
      rw [copyTranslated]
      cases s.translate with
      | none => exact ⟨rfl, rfl, rfl, rfl⟩
      | some t =>
        by_cases ht : t = "" <;> simp [ht]
    refine ⟨?_, (hcopy r).1, (hcopy r).2.1, (hcopy r).2.2.1, (hcopy r).2.2.2⟩
    rw [setDataHeap, h]
    exact List.get?_concat_length heap (copyTranslated r tr)

/-- C9 witness: with a two-row heap the first table row reads back unchanged
after the setter ran on it. -/
theorem c9_no_table_mutation_w :
    0 < ([rowA, rowB] : List Row).length ∧
    ((setDataHeap [rowA, rowB] 0 idString).1).get? 0 = ([rowA, rowB] : List Row).get? 0 :=
  ⟨by decide, (c9_no_table_mutation [rowA, rowB] 0 idString).1 0 (by decide)⟩

/-- C10: the no-modifier sentinel in `roll` is exactly the boolean `false`:
a modifier that is exactly `false` suppresses substitution entirely, while an
attribute whose modifier was never configured (`undefined`) still substitutes,
splicing the text "undefined" over the first occurrence of MOD; in every
substituting case only the FIRST occurrence of MOD is replaced — the suffix
`b`, which may itself contain MOD, is untouched. -/
theorem c10_mod_sentinel :
    (∀ (a b : String), noEarlyMatch ("MOD".data) b.data a.data = true →
       substMOD JSVal.undef (a ++ "MOD" ++ b) = a ++ "undefined" ++ b) ∧
    (∀ d : String, substMOD (JSVal.bool false) d = d) := by
  constructor
  · intro a b h
    rw [substMOD, if_pos (by simp)]
    apply string_ext
    show listReplaceFirst ("MOD".data) ((jsToString JSVal.undef).data)
        ((a ++ "MOD" ++ b).data) = (a ++ "undefined" ++ b).data
    have hd : (a ++ "MOD" ++ b).data = a.data ++ ("MOD".data ++ b.data) := by
      simp [String.data_append]
    rw [hd, listReplaceFirst_at ("MOD".data) _ (by decide) a.data b.data h]
    simp [String.data_append, jsToString]
  · intro d
    rw [substMOD, if_neg (by simp)]

/-- C10 witness: an unconfigured (undefined) modifier on
"1d6+" ++ "MOD" ++ "+MOD" replaces only the first MOD with "undefined", and
the `false` sentinel leaves "1d6+MOD" untouched. -/
theorem c10_mod_sentinel_w :
    noEarlyMatch ("MOD".data) "+MOD".data "1d6+".data = true ∧
    substMOD JSVal.undef ("1d6+" ++ "MOD" ++ "+MOD") = "1d6+" ++ "undefined" ++ "+MOD" ∧
    substMOD (JSVal.bool false) "1d6+MOD" = "1d6+MOD" :=
  ⟨by decide, c10_mod_sentinel.1 "1d6+" "+MOD" (by decide), c10_mod_sentinel.2 "1d6+MOD"⟩
